import Mathlib

/-!
Shallow embedding of `src/client.rs` of the tfchain_client repository.

The file models the three core pieces of the client:
* the per-method retry loop (duplicated ~18 times in the source, identical each time),
* `Client::height_at_timestamp` (interpolation search with bisection fallback),
* `FinalizedHeadSubscription::next` (mpsc receiver plus JSON decode),
plus the storage-absence behaviour of the `RawClient` query methods.

Machine integers: Rust `u32` values are modelled as `Nat` with explicit `% 2^32`
where the source can wrap, and Rust `i64` as `Int` (`i64` overflow is not reachable
for chain-realistic values).  Rust `/` on `i64` truncates toward zero, which is
`Int.tdiv`; `u32` division is `Nat` floor division.  Rust panics are modelled as
explicit fatal outcomes (`RunError`, `QueryOutcome.panicked`, `NextOutcome.panicked`).
-/

/-- Modulus of Rust `u32` arithmetic. -/
def U32 : Nat := 2 ^ 32

/-- Errors of the chain-access library (`substrate_api_client::ApiClientError`).
Only the `Disconnected` variant is relevant to control flow in the source: the
retry loops match `Err(ApiClientError::Disconnected(_))` and treat every other
result uniformly.  Remaining error kinds are collapsed into representative
variants. -/
inductive ApiClientError where
  | Disconnected (msg : String)
  | Rejected (msg : String)
  | Malformed (msg : String)
deriving DecidableEq

/-- Embedding of the per-method retry loop of `Client`:

```rust
let mut res = self.inner.op(..);
for _ in 0..5 {
    match res {
        Err(ApiClientError::Disconnected(_)) => {}
        x => return x,
    }
    res = self.inner.op(..);
}
res
```

The wrapped operation is modelled as a function of the attempt index (the i-th
invocation returns `op i`), which makes the network nondeterminism explicit.
`retryGo op res made rem` is the loop with `rem` iterations left, current result
`res`, and `made` invocations performed so far; it returns the final result
together with the total number of invocations of the underlying operation. -/
def retryGo {A : Type} (op : Nat → Except ApiClientError A) :
    Except ApiClientError A → Nat → Nat → Except ApiClientError A × Nat
  | res, made, 0 => (res, made)
  | res, made, rem + 1 =>
    match res with
    | .error (.Disconnected _) => retryGo op (op made) (made + 1) rem
    | x => (x, made)

/-- The full retry wrapper: one initial invocation followed by the `for _ in 0..5`
loop, exactly as in the source. -/
def retryCall {A : Type} (op : Nat → Except ApiClientError A) :
    Except ApiClientError A × Nat :=
  retryGo op (op 0) 1 5

/-- Minimal model of `crate::types::Twin` (its fields are irrelevant to the client
logic; only `Twin::default()` is observable). -/
structure Twin where
  id : Nat
  ip : String
deriving DecidableEq

instance : Inhabited Twin := ⟨⟨0, ""⟩⟩

/-- Embedding of the retrying facade method `Client::get_twin_by_id`.  Every other
facade method of `Client` wraps its underlying `RawClient` call in the identical
loop; the underlying operation is abstracted as an attempt-indexed function. -/
def Client.get_twin_by_id (inner : Nat → Except ApiClientError Twin) :
    Except ApiClientError Twin × Nat :=
  retryCall inner

/-- An operation that fails with a transient disconnect on its first `k`
invocations and succeeds with `v` from then on. -/
def opTransientThenOk {A : Type} (k : Nat) (v : A) :
    Nat → Except ApiClientError A :=
  fun i => if i < k then .error (.Disconnected "io") else .ok v

/-! ### Height resolver -/

/-- Nominal block time (`const BLOCK_TIME_SECONDS: i64 = 6`). -/
def BLOCK_TIME_SECONDS : Int := 6

/-- Pure model of the chain backend as seen by `height_at_timestamp`: a tip
height and a per-height timestamp in milliseconds (`Timestamp::Now`).  Block
hashes are modelled by the heights themselves. -/
structure Chain where
  tip : Nat
  tsMs : Nat → Int

/-- Model of `get_hash_at_height`: `chain_get_block_hash` returns a hash exactly
for heights up to the current tip. -/
def get_hash_at_height (c : Chain) (height : Nat) : Option Nat :=
  if height ≤ c.tip then some height else none

/-- Model of `block_timestamp`: reading storage `Timestamp::Now` at a specific
block, or at the latest block when no hash is given. -/
def block_timestamp (c : Chain) (block : Option Nat) : Int :=
  match block with
  | none => c.tsMs c.tip
  | some h => c.tsMs h

/-- Decidable equality for `Except` results, so that concrete runs can be
checked by `decide`. -/
instance {e a : Type} [DecidableEq e] [DecidableEq a] : DecidableEq (Except e a) := fun
  | .ok x, .ok y =>
    if h : x = y then isTrue (congrArg Except.ok h)
    else isFalse (fun he => h (Except.ok.inj he))
  | .ok _, .error _ => isFalse (fun he => Except.noConfusion he)
  | .error _, .ok _ => isFalse (fun he => Except.noConfusion he)
  | .error x, .error y =>
    if h : x = y then isTrue (congrArg Except.error h)
    else isFalse (fun he => h (Except.error.inj he))

/-- Fatal outcomes of `height_at_timestamp`; both are `panic!` calls in the
source, modelled as error values. -/
inductive RunError where
  | futureTs (ts latest : Int)
  | negativeHeight (height : Nat) (delta : Int)
deriving DecidableEq

/-- One iteration of the `loop` body of `height_at_timestamp`, with state
`(height, last_height)` (both Rust `u32`).  Returns either a terminal outcome
(`Ok` height or panic) or the next state:

* hash lookup misses → bisect toward `last_height` and continue,
* `block_delta == 0` → converged, return `height + 1` or `height`,
* predicted height negative → panic,
* otherwise jump by `block_delta` and continue with `last_height = height`. -/
def hatStep (c : Chain) (ts : Int) (height last_height : Nat) :
    Except RunError Nat ⊕ Nat × Nat :=
  match get_hash_at_height c height with
  | none => .inr ((height + last_height) % U32 / 2, last_height)
  | some hash =>
    let block_time := Int.tdiv (block_timestamp c (some hash)) 1000
    let time_delta := ts - block_time
    let block_delta := Int.tdiv time_delta BLOCK_TIME_SECONDS
    if block_delta = 0 then
      if time_delta ≥ 0 then .inl (.ok ((height + 1) % U32))
      else .inl (.ok height)
    else if (height : Int) + block_delta < 0 then
      .inl (.error (.negativeHeight height block_delta))
    else
      .inr ((((height : Int) + block_delta).toNat) % U32, height)

/-- The search loop of `height_at_timestamp`.  The source loop has no iteration
bound; the embedding adds explicit fuel and returns `none` on exhaustion (no
claim concerns that case). -/
def hatLoop (c : Chain) (ts : Int) : Nat → Nat → Nat → Option (Except RunError Nat)
  | 0, _, _ => none
  | fuel + 1, height, last_height =>
    match hatStep c ts height last_height with
    | .inl r => some r
    | .inr (h, lh) => hatLoop c ts fuel h lh

/-- Embedding of `Client::height_at_timestamp`: the future-timestamp sanity check
(`panic!` modelled as `RunError.futureTs`) followed by the search loop started at
`height = 1`, `last_height = 1`. -/
def height_at_timestamp (c : Chain) (ts : Int) (fuel : Nat) :
    Option (Except RunError Nat) :=
  if Int.tdiv (block_timestamp c none) 1000 < ts then
    some (.error (.futureTs ts (Int.tdiv (block_timestamp c none) 1000)))
  else hatLoop c ts fuel 1 1

/-- Per-height block time in seconds, exactly as the source computes it
(`block_timestamp(..)? / 1000`, truncating `i64` division). -/
def secondsAt (c : Chain) (h : Nat) : Int :=
  Int.tdiv (c.tsMs h) 1000

/-- Synthetic chain with constant 6-second block intervals: block `h` is produced
at second `T0 + 6*(h-1)`, so block 1 carries timestamp `T0`; `n` is the tip. -/
def regChain (T0 : Int) (n : Nat) : Chain :=
  { tip := n, tsMs := fun h => (T0 + 6 * ((h : Int) - 1)) * 1000 }

/-- Per-height seconds of the irregular synthetic chain: one 1-second interval
(between heights 2 and 3) among 6-second intervals. -/
def irrSeconds : Nat → Int
  | 1 => 0
  | 2 => 6
  | 3 => 7
  | 4 => 13
  | _ => 19

/-- Irregular synthetic chain with 5 blocks at seconds 0, 6, 7, 13, 19. -/
def irrChain : Chain :=
  { tip := 5, tsMs := fun h => irrSeconds h * 1000 }

/-! ### RawClient storage queries -/

/-- Minimal model of `crate::types::Farm`. -/
structure Farm where
  id : Nat
deriving DecidableEq

/-- Minimal model of a decoded chain event. -/
inductive TfchainEvent where
  | fromRaw (n : Nat)
deriving DecidableEq

/-- Minimal model of `system::EventRecord`. -/
structure EventRecord where
  event : Nat
deriving DecidableEq

/-- Observable outcome of a `RawClient` query: a returned value, a returned
error, or a Rust panic (from `.unwrap()`). -/
inductive QueryOutcome (A : Type) where
  | ok (a : A)
  | err (e : ApiClientError)
  | panicked
deriving DecidableEq

/-- Embedding of `RawClient::get_twin_by_id`: the storage read's `Result` is
`.unwrap()`ed (panic on error), and an absent entry is replaced by
`Twin::default()` via `.or_else(|| Some(Twin::default())).unwrap()`. -/
def RawClient.get_twin_by_id (resp : Except ApiClientError (Option Twin)) :
    QueryOutcome Twin :=
  match resp with
  | .error _ => .panicked
  | .ok none => .ok default
  | .ok (some t) => .ok t

/-- Embedding of `RawClient::get_farm_by_id`: the storage read's result is
returned as-is, so absence is `Ok(None)`. -/
def RawClient.get_farm_by_id (resp : Except ApiClientError (Option Farm)) :
    QueryOutcome (Option Farm) :=
  match resp with
  | .error e => .err e
  | .ok o => .ok o

/-- Embedding of `RawClient::block_timestamp`: errors propagate via `?`, and the
resulting `Option` is `.unwrap()`ed, so an absent `Timestamp::Now` entry panics. -/
def RawClient.block_timestamp (resp : Except ApiClientError (Option Int)) :
    QueryOutcome Int :=
  match resp with
  | .error e => .err e
  | .ok none => .panicked
  | .ok (some v) => .ok v

/-- Embedding of `RawClient::get_block_events`: errors propagate via `?`, the
`Option` is `.unwrap()`ed (panic on absence), and the records are mapped into
`TfchainEvent`s. -/
def RawClient.get_block_events
    (resp : Except ApiClientError (Option (List EventRecord))) :
    QueryOutcome (List TfchainEvent) :=
  match resp with
  | .error e => .err e
  | .ok none => .panicked
  | .ok (some evs) => .ok (evs.map fun e => .fromRaw e.event)

/-- Embedding of `RawClient::farm_count`:
`get_storage_value(..).map(|i| i.unwrap())`, so absence panics. -/
def RawClient.farm_count (resp : Except ApiClientError (Option Nat)) :
    QueryOutcome Nat :=
  match resp with
  | .error e => .err e
  | .ok none => .panicked
  | .ok (some v) => .ok v

/-- Embedding of `RawClient::node_count`:
`get_storage_value(..).map(|i| i.unwrap())`, so absence panics. -/
def RawClient.node_count (resp : Except ApiClientError (Option Nat)) :
    QueryOutcome Nat :=
  match resp with
  | .error e => .err e
  | .ok none => .panicked
  | .ok (some v) => .ok v

/-- Embedding of `RawClient::contract_count`:
`get_storage_value(..).map(|i| i.unwrap_or(0))`, so absence yields `Ok(0)`. -/
def RawClient.contract_count (resp : Except ApiClientError (Option Nat)) :
    QueryOutcome Nat :=
  match resp with
  | .error e => .err e
  | .ok none => .ok 0
  | .ok (some v) => .ok v

/-! ### Finalized header stream -/

/-- Minimal model of `runtime::Header`. -/
structure Header where
  parentHash : String
  number : Nat
  stateRoot : String
  extrinsicsRoot : String
deriving DecidableEq

/-- State of the mpsc channel feeding `FinalizedHeadSubscription`: the pending
payloads in FIFO order, and whether the sending side has been dropped. -/
structure ChannelState where
  pending : List String
  closed : Bool
deriving DecidableEq

/-- Observable outcome of one `next()` call: a decoded header, the iterator's
end-of-stream indicator (`None`), a Rust panic, or blocking forever on an open
empty channel. -/
inductive NextOutcome where
  | item (h : Header)
  | endOfStream
  | panicked
  | blocked
deriving DecidableEq

/-- Embedding of `FinalizedHeadSubscription::next`:

```rust
let header_str = self.stream.recv().unwrap();
Some(serde_json::from_str(&header_str).unwrap())
```

`recv()` returns the oldest pending payload, blocks when the channel is open and
empty, and returns `Err(RecvError)` when it is closed and empty — which the
`.unwrap()` turns into a panic.  A payload that fails to decode also panics.
The JSON decoding of `runtime::Header` is external to the repository and is
abstracted as a `decode` function. -/
def subNext (decode : String → Option Header) :
    ChannelState → NextOutcome × ChannelState
  | ⟨[], closed⟩ =>
    if closed then (.panicked, ⟨[], closed⟩) else (.blocked, ⟨[], closed⟩)
  | ⟨m :: rest, closed⟩ =>
    match decode m with
    | some h => (.item h, ⟨rest, closed⟩)
    | none => (.panicked, ⟨rest, closed⟩)

/-- Outcomes of `n` successive `next()` calls, oldest first. -/
def drainN (decode : String → Option Header) : Nat → ChannelState → List NextOutcome
  | 0, _ => []
  | n + 1, st =>
    (subNext decode st).1 :: drainN decode n (subNext decode st).2

/-- A concrete header used on concrete inputs. -/
def hdr1 : Header := ⟨"0xparent", 1, "0xstate", "0xext"⟩

/-- A concrete decoder accepting exactly the payload "h1". -/
def decode1 : String → Option Header :=
  fun s => if s = "h1" then some hdr1 else none

/-! ### Helper lemmas -/

/-- Millisecond-to-second conversion is exact on the synthetic chains (their
timestamps are whole seconds scaled by 1000). -/
theorem tdiv_mul_thousand (x : Int) : Int.tdiv (x * 1000) 1000 = x :=
  Int.mul_tdiv_cancel x (by norm_num)

/-- Seconds of block `h` on the constant-interval chain. -/
theorem secondsAt_regChain (T0 : Int) (n h : Nat) :
    secondsAt (regChain T0 n) h = T0 + 6 * ((h : Int) - 1) := by
  show Int.tdiv ((T0 + 6 * ((h : Int) - 1)) * 1000) 1000 = _
  exact tdiv_mul_thousand _

/-- Evaluation of one loop iteration when the block hash at `height` resolves. -/
theorem hatStep_hit (c : Chain) (ts : Int) (h lh : Nat) (hh : h ≤ c.tip) :
    hatStep c ts h lh =
      (if Int.tdiv (ts - secondsAt c h) BLOCK_TIME_SECONDS = 0 then
        if ts - secondsAt c h ≥ 0 then .inl (.ok ((h + 1) % U32))
        else .inl (.ok h)
      else if (h : Int) + Int.tdiv (ts - secondsAt c h) BLOCK_TIME_SECONDS < 0 then
        .inl (.error (.negativeHeight h (Int.tdiv (ts - secondsAt c h) BLOCK_TIME_SECONDS)))
      else
        .inr ((((h : Int) + Int.tdiv (ts - secondsAt c h) BLOCK_TIME_SECONDS).toNat) % U32,
          h)) := by
  unfold hatStep get_hash_at_height
  rw [if_pos hh]
  rfl

/-! ### Claim theorems -/

/-- C5: a target timestamp strictly greater than the latest block's timestamp
makes `height_at_timestamp` fail fatally (the source's `panic!`, modelled as the
non-retryable `RunError.futureTs`) without returning a height. -/
theorem c5_future_timestamp_fatal (c : Chain) (ts : Int) (fuel : Nat)
    (h : Int.tdiv (block_timestamp c none) 1000 < ts) :
    height_at_timestamp c ts fuel =
      some (.error (.futureTs ts (Int.tdiv (block_timestamp c none) 1000))) := by
  unfold height_at_timestamp
  rw [if_pos h]

/-- Witness for C5 at a concrete chain and target. -/
theorem c5_future_timestamp_fatal_witness :
    Int.tdiv (block_timestamp (regChain 0 2) none) 1000 < 100 ∧
    height_at_timestamp (regChain 0 2) 100 7 =
      some (.error (.futureTs 100 (Int.tdiv (block_timestamp (regChain 0 2) none) 1000))) :=
  ⟨by decide, c5_future_timestamp_fatal (regChain 0 2) 100 7 (by decide)⟩

/-- C6: when the block-hash lookup at the current height misses, the iteration
bisects toward `last_height` (`height = (height + last_height) / 2`, floor),
leaves `last_height` unchanged, and goes straight to the next iteration without
any timestamp fetch or delta computation. -/
theorem c6_bisection_on_missing_block (c : Chain) (ts : Int) (fuel h lh : Nat)
    (hnone : get_hash_at_height c h = none) (hov : h + lh < U32) :
    hatStep c ts h lh = .inr ((h + lh) / 2, lh) ∧
    hatLoop c ts (fuel + 1) h lh = hatLoop c ts fuel ((h + lh) / 2) lh := by
  have hs : hatStep c ts h lh = .inr ((h + lh) / 2, lh) := by
    unfold hatStep
    rw [hnone, Nat.mod_eq_of_lt hov]
  exact ⟨hs, by simp only [hatLoop, hs]⟩

/-- Witness for C6 at a concrete chain and state. -/
theorem c6_bisection_on_missing_block_witness :
    get_hash_at_height (regChain 0 2) 5 = none ∧ 5 + 1 < U32 ∧
    hatStep (regChain 0 2) 6 5 1 = .inr (3, 1) ∧
    hatLoop (regChain 0 2) 6 3 5 1 = hatLoop (regChain 0 2) 6 2 3 1 :=
  ⟨by decide, by decide,
    (c6_bisection_on_missing_block (regChain 0 2) 6 2 5 1 (by decide) (by decide)).1,
    (c6_bisection_on_missing_block (regChain 0 2) 6 2 5 1 (by decide) (by decide)).2⟩

/-- C7 counterexample: after delivering a header, closing the channel makes the
next `next()` call panic (the `.unwrap()` of `recv()`'s error), not return the
end-of-stream indicator as the claim states. -/
theorem c7_closed_channel_counterexample :
    subNext decode1 ⟨["h1"], true⟩ = (NextOutcome.item hdr1, ⟨[], true⟩) ∧
    (subNext decode1 ⟨[], true⟩).1 = NextOutcome.panicked ∧
    (subNext decode1 ⟨[], true⟩).1 ≠ NextOutcome.endOfStream := by
  refine ⟨?_, rfl, by decide⟩
  simp [subNext, decode1]

/-- C7 (amended): `next()` never returns the end-of-stream indicator; on a
permanently closed (and drained) channel it panics instead. -/
theorem c7_closed_channel_panics (decode : String → Option Header)
    (st : ChannelState) :
    (subNext decode st).1 ≠ NextOutcome.endOfStream ∧
    (subNext decode ⟨[], true⟩).1 = NextOutcome.panicked := by
  refine ⟨?_, rfl⟩
  match st with
  | ⟨[], closed⟩ => cases closed <;> simp [subNext]
  | ⟨m :: rest, closed⟩ => cases hd : decode m <;> simp [subNext, hd]

/-- C8: payloads pushed in order are returned by successive `next()` calls as
the correspondingly decoded headers, in exactly that order, with no loss,
reordering, or deduplication. -/
theorem c8_fifo_delivery (decode : String → Option Header) (msgs : List String)
    (hs : List Header) (closed : Bool)
    (hdec : List.Forall₂ (fun m h => decode m = some h) msgs hs) :
    drainN decode msgs.length ⟨msgs, closed⟩ = hs.map NextOutcome.item := by
  induction hdec with
  | nil => rfl
  | cons hmh _ ih => simp [drainN, subNext, hmh, ih]

/-- Witness for C8 with one concrete well-formed payload. -/
theorem c8_fifo_delivery_witness :
    List.Forall₂ (fun m h => decode1 m = some h) ["h1"] [hdr1] ∧
    drainN decode1 1 ⟨["h1"], true⟩ = [NextOutcome.item hdr1] := by
  have prem : List.Forall₂ (fun m h => decode1 m = some h) ["h1"] [hdr1] := by
    refine List.Forall₂.cons ?_ List.Forall₂.nil
    simp [decode1]
  exact ⟨prem, c8_fifo_delivery decode1 ["h1"] [hdr1] true prem⟩

/-- C9 counterexample: `block_timestamp` and `get_block_events` do not surface
an absent storage entry as an empty/optional success — they panic. -/
theorem c9_absence_counterexample :
    RawClient.block_timestamp (.ok none) = QueryOutcome.panicked ∧
    RawClient.get_block_events (.ok none) = QueryOutcome.panicked ∧
    ¬ ∃ v, RawClient.block_timestamp (.ok none) = QueryOutcome.ok v := by
  refine ⟨rfl, rfl, ?_⟩
  rintro ⟨v, hv⟩
  simp [RawClient.block_timestamp] at hv

/-- C9 (amended): absence is a successful empty/default result for
`get_farm_by_id` (`Ok(None)`), `get_twin_by_id` (default twin) and
`contract_count` (0), but `block_timestamp`, `get_block_events`, `farm_count`
and `node_count` panic when the queried storage entry is absent. -/
theorem c9_absence_behavior :
    RawClient.get_farm_by_id (.ok none) = QueryOutcome.ok none ∧
    RawClient.get_twin_by_id (.ok none) = QueryOutcome.ok default ∧
    RawClient.contract_count (.ok none) = QueryOutcome.ok 0 ∧
    RawClient.block_timestamp (.ok none) = QueryOutcome.panicked ∧
    RawClient.get_block_events (.ok none) = QueryOutcome.panicked ∧
    RawClient.farm_count (.ok none) = QueryOutcome.panicked ∧
    RawClient.node_count (.ok none) = QueryOutcome.panicked :=
  ⟨rfl, rfl, rfl, rfl, rfl, rfl, rfl⟩

/-- C10: `contract_count` substitutes 0 for an absent `ContractID` value, while
`farm_count` and `node_count` unwrap the absent value unconditionally and
panic. -/
theorem c10_count_absence_guards :
    RawClient.contract_count (.ok none) = QueryOutcome.ok 0 ∧
    RawClient.farm_count (.ok none) = QueryOutcome.panicked ∧
    RawClient.node_count (.ok none) = QueryOutcome.panicked :=
  ⟨rfl, rfl, rfl⟩

/-- C1 counterexample.  First part (constant 6-second chain, seconds 0, 6, 12,
target 6): the resolver returns height 3, but the claim's straddling height is
2, and height 3 violates the requirement that the block at `h - 1` be strictly
before the target (block 2 is at second 6, not before 6).  Second part
(irregular chain with one 1-second interval, seconds 0, 6, 7, 13, 19, target
9): the resolver returns height 3, which violates the requirement that the
block at `h` be at or after the target (block 3 is at second 7 < 9). -/
theorem c1_straddle_counterexample :
    (height_at_timestamp (regChain 0 3) 6 2 = some (.ok 3) ∧
      ¬ secondsAt (regChain 0 3) (3 - 1) < 6) ∧
    (height_at_timestamp irrChain 9 2 = some (.ok 3) ∧
      ¬ (9 : Int) ≤ secondsAt irrChain 3) := by
  decide

/-- Closed form of the retry loop run against an operation that fails with a
transient disconnect on its first `k` invocations: with `rem` loop iterations
left and the result of invocation `m + 1` in hand, the loop either returns the
first successful result (invocation `k + 1`) or exhausts its budget. -/
theorem retryGo_opTransientThenOk {A : Type} (k : Nat) (v : A) :
    ∀ (rem m : Nat),
      retryGo (opTransientThenOk k v) (opTransientThenOk k v m) (m + 1) rem =
        if k ≤ m then (.ok v, m + 1)
        else if k ≤ m + rem then (.ok v, k + 1)
        else (.error (.Disconnected "io"), m + rem + 1) := by
  intro rem
  induction rem with
  | zero =>
    intro m
    by_cases hk : k ≤ m
    · rw [if_pos hk]
      have hop : opTransientThenOk k v m = .ok v := by
        unfold opTransientThenOk
        rw [if_neg (by omega)]
      rw [hop]
      rfl
    · rw [if_neg hk, if_neg (by omega : ¬ k ≤ m + 0)]
      have hop : opTransientThenOk k v m = .error (.Disconnected "io") := by
        unfold opTransientThenOk
        rw [if_pos (by omega)]
      rw [hop]
      rfl
  | succ rem ih =>
    intro m
    by_cases hk : k ≤ m
    · rw [if_pos hk]
      have hop : opTransientThenOk k v m = .ok v := by
        unfold opTransientThenOk
        rw [if_neg (by omega)]
      rw [hop]
      rfl
    · have hop : opTransientThenOk k v m = .error (.Disconnected "io") := by
        unfold opTransientThenOk
        rw [if_pos (by omega)]
      rw [hop]
      show retryGo (opTransientThenOk k v) (opTransientThenOk k v (m + 1)) (m + 1 + 1) rem = _
      rw [ih (m + 1)]
      rw [if_neg hk]
      by_cases hk1 : k ≤ m + 1
      · rw [if_pos hk1, if_pos (by omega : k ≤ m + (rem + 1))]
        have : k = m + 1 := by omega
        subst this
        rfl
      · rw [if_neg hk1]
        by_cases hk2 : k ≤ m + 1 + rem
        · rw [if_pos hk2, if_pos (by omega : k ≤ m + (rem + 1))]
        · rw [if_neg hk2, if_neg (by omega : ¬ k ≤ m + (rem + 1))]
          have : m + 1 + rem + 1 = m + (rem + 1) + 1 := by omega
          rw [this]

/-- C3: wrapping an operation that fails with a transient disconnect exactly `k`
times and then succeeds, the retrying facade method succeeds iff `k < 6`
(1 initial attempt plus 5 retries), invokes the underlying operation exactly
`min (k + 1) 6` times, and returns the result of the final invocation
unchanged. -/
theorem c3_retry_budget (k : Nat) (t : Twin) :
    ((Client.get_twin_by_id (opTransientThenOk k t)).1 = .ok t ↔ k < 6) ∧
    (Client.get_twin_by_id (opTransientThenOk k t)).2 = min (k + 1) 6 ∧
    (Client.get_twin_by_id (opTransientThenOk k t)).1 =
      opTransientThenOk k t ((Client.get_twin_by_id (opTransientThenOk k t)).2 - 1) := by
  have h := retryGo_opTransientThenOk k t 5 0
  unfold Client.get_twin_by_id retryCall
  rw [show (0 : Nat) + 1 = 1 from rfl] at h
  rw [h]
  by_cases h0 : k ≤ 0
  · rw [if_pos h0]
    have : k = 0 := by omega
    subst this
    refine ⟨by simp, by simp, ?_⟩
    unfold opTransientThenOk
    rw [if_neg (by omega)]
  · rw [if_neg h0]
    by_cases h5 : k ≤ 0 + 5
    · rw [if_pos h5]
      refine ⟨by simp; omega, by simp; omega, ?_⟩
      unfold opTransientThenOk
      rw [if_neg (by omega)]
    · rw [if_neg h5]
      refine ⟨?_, by simp; omega, ?_⟩
      · constructor
        · intro he
          exact absurd he (by simp)
        · intro hlt
          omega
      · unfold opTransientThenOk
        rw [if_pos (by omega)]

/-- C4: if the first invocation of the wrapped operation returns anything other
than a transient-disconnect error (a success or any other error kind), the
facade performs exactly one invocation and returns that result unchanged. -/
theorem c4_non_transient_immediate (inner : Nat → Except ApiClientError Twin)
    (h : ∀ s, inner 0 ≠ .error (.Disconnected s)) :
    Client.get_twin_by_id inner = (inner 0, 1) := by
  unfold Client.get_twin_by_id retryCall
  cases h0 : inner 0 with
  | ok a => rfl
  | error e =>
    cases e with
    | Disconnected m => exact absurd h0 (h m)
    | Rejected m => rfl
    | Malformed m => rfl

/-- Witness for C4 with a concrete non-transient error. -/
theorem c4_non_transient_immediate_witness :
    Client.get_twin_by_id (fun _ => .error (.Rejected "bad")) =
      (.error (.Rejected "bad"), 1) :=
  c4_non_transient_immediate (fun _ => .error (.Rejected "bad")) (fun s => by simp)

/-- Truncating division of cast naturals agrees with `Nat` division. -/
theorem tdiv_natCast (a b : Nat) :
    Int.tdiv (a : Int) (b : Int) = ((a / b : Nat) : Int) := rfl

/-- Run of `height_at_timestamp` on the constant 6-second chain: for a target
between block 1's timestamp and the tip's, the search terminates (two loop
iterations suffice) and returns `(ts - T0) / 6 + 2`. -/
theorem regChain_run (T0 : Int) (n : Nat) (ts : Int) (fuel : Nat)
    (h1 : T0 ≤ ts) (h2 : ts ≤ T0 + 6 * ((n : Int) - 1))
    (hn : n + 1 < U32) (hf : 2 ≤ fuel) :
    height_at_timestamp (regChain T0 n) ts fuel =
      some (.ok ((ts - T0).toNat / 6 + 2)) := by
  obtain ⟨k, rfl⟩ : ∃ k, fuel = k + 2 := ⟨fuel - 2, by omega⟩
  have hn1 : 1 ≤ n := by omega
  set d : Nat := (ts - T0).toNat with hd
  set q : Nat := d / 6 with hq
  have hts : ts = T0 + (d : Int) := by omega
  have hqd : 6 * q ≤ d ∧ d < 6 * q + 6 := by omega
  have hdn : (d : Int) ≤ 6 * ((n : Int) - 1) := by omega
  have hqn : q + 1 ≤ n := by omega
  have htip : (regChain T0 n).tip = n := rfl
  -- the future-timestamp gate does not fire
  have hgate : ¬ Int.tdiv (block_timestamp (regChain T0 n) none) 1000 < ts := by
    have hsec : Int.tdiv (block_timestamp (regChain T0 n) none) 1000 =
        secondsAt (regChain T0 n) n := rfl
    rw [hsec, secondsAt_regChain]
    omega
  unfold height_at_timestamp
  rw [if_neg hgate]
  -- first iteration, at height 1
  have e1 : secondsAt (regChain T0 n) 1 = T0 := by
    rw [secondsAt_regChain]
    ring
  have hstep1 := hatStep_hit (regChain T0 n) ts 1 1 (by rw [htip]; omega)
  rw [e1, show ts - T0 = (d : Int) from by omega] at hstep1
  have hbd1 : Int.tdiv (d : Int) BLOCK_TIME_SECONDS = (q : Int) := by
    rw [show BLOCK_TIME_SECONDS = ((6 : Nat) : Int) from rfl, tdiv_natCast, hq]
  rw [hbd1] at hstep1
  rcases Nat.eq_zero_or_pos q with hq0 | hqpos
  · -- immediate convergence: block_delta = 0, target at or after block 1
    rw [if_pos (by omega : ((q : Nat) : Int) = 0),
      if_pos (by omega : (d : Int) ≥ 0)] at hstep1
    rw [show (1 + 1) % U32 = 2 from Nat.mod_eq_of_lt (by omega)] at hstep1
    simp only [hatLoop, hstep1]
    rw [show q + 2 = 2 from by omega]
  · -- one interpolation jump to height q + 1, then convergence
    rw [if_neg (by omega : ¬ ((q : Nat) : Int) = 0)] at hstep1
    rw [show ((1 : Nat) : Int) = (1 : Int) from rfl] at hstep1
    rw [if_neg (by omega : ¬ (1 : Int) + (q : Int) < 0)] at hstep1
    rw [show ((1 : Int) + (q : Int)).toNat = q + 1 from by omega] at hstep1
    rw [show (q + 1) % U32 = q + 1 from Nat.mod_eq_of_lt (by omega)] at hstep1
    -- second iteration, at height q + 1
    have e2 : secondsAt (regChain T0 n) (q + 1) = T0 + 6 * (q : Int) := by
      rw [secondsAt_regChain]
      push_cast
      ring
    have hstep2 := hatStep_hit (regChain T0 n) ts (q + 1) 1 (by rw [htip]; omega)
    rw [e2, show ts - (T0 + 6 * (q : Int)) = ((d - 6 * q : Nat) : Int) from by omega]
      at hstep2
    have hbd2 : Int.tdiv ((d - 6 * q : Nat) : Int) BLOCK_TIME_SECONDS = 0 := by
      rw [show BLOCK_TIME_SECONDS = ((6 : Nat) : Int) from rfl, tdiv_natCast]
      rw [show (d - 6 * q) / 6 = 0 from by omega]
      rfl
    rw [hbd2, if_pos rfl,
      if_pos (by omega : ((d - 6 * q : Nat) : Int) ≥ 0)] at hstep2
    rw [show (q + 1 + 1) % U32 = q + 2 from Nat.mod_eq_of_lt (by omega)] at hstep2
    simp only [hatLoop, hstep1, hstep2]

/-- C1 (amended): on a chain with constant 6-second intervals and a target
between block 1's timestamp and the latest block's, `height_at_timestamp`
returns the unique height `h` whose interval straddles the target with the
adjacent-equality convention flipped relative to the claim: the block at
`h - 1` was produced at or before the target and the block at `h` strictly
after it (`seconds (h-1) ≤ ts < seconds h`). -/
theorem c1_regular_chain_resolution (T0 : Int) (n : Nat) (ts : Int) (fuel : Nat)
    (h1 : T0 ≤ ts) (h2 : ts ≤ T0 + 6 * ((n : Int) - 1))
    (hn : n + 1 < U32) (hf : 2 ≤ fuel) :
    ∃ h : Nat,
      height_at_timestamp (regChain T0 n) ts fuel = some (.ok h) ∧
      secondsAt (regChain T0 n) (h - 1) ≤ ts ∧
      ts < secondsAt (regChain T0 n) h ∧
      ∀ h' : Nat, secondsAt (regChain T0 n) (h' - 1) ≤ ts →
        ts < secondsAt (regChain T0 n) h' → h' = h := by
  refine ⟨(ts - T0).toNat / 6 + 2, regChain_run T0 n ts fuel h1 h2 hn hf, ?_, ?_, ?_⟩
  · rw [secondsAt_regChain]
    have : (ts - T0).toNat / 6 + 2 - 1 = (ts - T0).toNat / 6 + 1 := by omega
    rw [this]
    push_cast
    omega
  · rw [secondsAt_regChain]
    push_cast
    omega
  · intro h' ha hb
    rw [secondsAt_regChain] at ha hb
    have hc : ((h' - 1 : Nat) : Int) = (h' : Int) - 1 ∨ h' = 0 := by omega
    rcases hc with hc | hc
    · rw [hc] at ha
      omega
    · subst hc
      simp only [Nat.zero_sub] at ha
      omega

/-- Witness for C1's amended theorem on a concrete chain (seconds 0, 6, 12,
target 8, resolved height 3). -/
theorem c1_regular_chain_resolution_witness :
    ∃ h : Nat,
      height_at_timestamp (regChain 0 3) 8 2 = some (.ok h) ∧
      secondsAt (regChain 0 3) (h - 1) ≤ 8 ∧
      8 < secondsAt (regChain 0 3) h ∧
      ∀ h' : Nat, secondsAt (regChain 0 3) (h' - 1) ≤ 8 →
        8 < secondsAt (regChain 0 3) h' → h' = h :=
  c1_regular_chain_resolution 0 3 8 2 (by norm_num) (by norm_num) (by decide)
    (by norm_num)

/-- C2: on the constant 6-second chain starting at height 1 with timestamp
`T0`, resolving target `T0 + 6*m + 3` returns height `m + 2`, and resolving
exactly `T0` returns height 2 (the `>= 0` branch). -/
theorem c2_constant_interval_targets (T0 : Int) (n m fuel : Nat)
    (hmn : m + 2 ≤ n) (hn : n + 1 < U32) (hf : 2 ≤ fuel) :
    height_at_timestamp (regChain T0 n) (T0 + 6 * (m : Int) + 3) fuel =
      some (.ok (m + 2)) ∧
    height_at_timestamp (regChain T0 n) T0 fuel = some (.ok 2) := by
  constructor
  · have h := regChain_run T0 n (T0 + 6 * (m : Int) + 3) fuel (by omega)
      (by omega) hn hf
    rw [h]
    rw [show (T0 + 6 * (m : Int) + 3 - T0).toNat = 6 * m + 3 from by omega]
    rw [show (6 * m + 3) / 6 = m from by omega]
  · have h := regChain_run T0 n T0 fuel (by omega) (by omega) hn hf
    rw [h]
    rw [show (T0 - T0).toNat = 0 from by omega]

/-- Witness for C2 on a concrete chain (`T0 = 100`, 5 blocks, `m = 1`). -/
theorem c2_constant_interval_targets_witness :
    height_at_timestamp (regChain 100 5) (100 + 6 * ((1 : Nat) : Int) + 3) 2 =
      some (.ok (1 + 2)) ∧
    height_at_timestamp (regChain 100 5) 100 2 = some (.ok 2) :=
  c2_constant_interval_targets 100 5 1 2 (by norm_num) (by decide) (by norm_num)
